import Mathlib

/-!
Verification of the command parse/dispatch core of a RESP-like key-value
server (`src/cmd/mod.rs`).  The dispatcher (`Command.from_frame`,
`Command.apply`, `Command.get_name`) is embedded from the source; the
collaborators it delegates to (`Parse`, `Get`, `Unknown`, `Db`,
`Connection`, `Shutdown`), whose code is not in the repository snapshot,
are modelled from the specification.
-/

/-- Modelled from the spec: `Frame` (external, frame.rs is missing) is a
discriminated tree value, one of Array, BulkString, SimpleString, Integer,
Null, Error.  Byte sequences are modelled as strings. -/
inductive Frame where
  | array (items : List Frame)
  | bulk (s : String)
  | simple (s : String)
  | integer (i : Int)
  | null
  | error (msg : String)

/-- The string payload of a frame, when the frame is one of the two
string-shaped variants (BulkString or SimpleString). -/
def Frame.asString : Frame → Option String
  | .bulk s => some s
  | .simple s => some s
  | _ => none

/-- Parse-path failures; every constructor is a `ProtocolError` subkind in
the spec's taxonomy (not-an-array, end of stream, wrong frame type,
trailing elements). -/
inductive ParseErr where
  | notAnArray
  | endOfStream
  | invalidFrameType
  | trailingElements
deriving DecidableEq

/-- Modelled from the spec: `Parse` (parse.rs is missing) is a one-shot
forward cursor over an Array frame's elements; represented by the list of
not-yet-consumed elements (array plus advancing position). -/
def Parse := List Frame

/-- Modelled from the spec: `Parse::new` succeeds only on the Array
variant; any other frame fails with a `ProtocolError` (NotAnArray). -/
def Parse.new : Frame → Except ParseErr Parse
  | .array items => .ok items
  | _ => .error .notAnArray

/-- Modelled from the spec: `Parse::next_frame` returns the next
unconsumed element and advances, or fails with EndOfStream. -/
def Parse.next_frame : Parse → Except ParseErr (Frame × Parse)
  | [] => .error .endOfStream
  | f :: rest => .ok (f, rest)

/-- Modelled from the spec: `Parse::next_string` requires the next element
to be BulkString or SimpleString and yields its text; any other frame type
fails with InvalidFrameType. -/
def Parse.next_string (p : Parse) : Except ParseErr (String × Parse) :=
  match p.next_frame with
  | .error e => .error e
  | .ok (.bulk s, rest) => .ok (s, rest)
  | .ok (.simple s, rest) => .ok (s, rest)
  | .ok _ => .error .invalidFrameType

/-- Modelled from the spec: `Parse::finish` succeeds only when every
element has been consumed; leftovers fail with TrailingElements. -/
def Parse.finish : Parse → Except ParseErr Unit
  | [] => .ok ()
  | _ :: _ => .error .trailingElements

/-- Modelled from the spec: the `Get` command (get.rs is missing) carries
its fully parsed key. -/
structure Get where
  key : String

/-- Modelled from the spec: `Get::parse_frames` reads exactly one further
element via `next_string`, which becomes the key. -/
def Get.parse_frames (p : Parse) : Except ParseErr (Get × Parse) :=
  match p.next_string with
  | .error e => .error e
  | .ok (key, rest) => .ok (⟨key⟩, rest)

/-- Modelled from the spec: the `Unknown` command (unknown.rs is missing)
carries only the originally observed command name. -/
structure Unknown where
  command_name : String

/-- Modelled from the spec: `Unknown::new` wraps the command name. -/
def Unknown.new (name : String) : Unknown := ⟨name⟩

/-- Modelled from the spec: `Unknown::get_name` returns the carried
command name. -/
def Unknown.get_name (cmd : Unknown) : String := cmd.command_name

/-- Modelled from the spec: the `Db` store collaborator, reduced to its
lookup table `get(key) -> bytes | NotFound`. -/
structure Db where
  lookup : String → Option String

/-- Modelled from the spec: the `Shutdown` collaborator, an observe-only
cancellation token. -/
structure Shutdown where
  notified : Bool

/-- Apply-path failures (`ApplyError` in the spec's taxonomy). -/
inductive ApplyErr where
  | applyErr (msg : String)
deriving DecidableEq

/-- Modelled from the spec: `Get::apply` looks the key up in the store; if
present it writes a bulk frame carrying the stored bytes, if absent a null
frame; the store is returned unchanged and the result is success.  The
written response frame is returned in place of writing to the
connection. -/
def Get.apply (cmd : Get) (db : Db) : Db × Frame × Except ApplyErr Unit :=
  match db.lookup cmd.key with
  | some v => (db, Frame.bulk v, .ok ())
  | none => (db, Frame.null, .ok ())

/-- Modelled from the spec: `Unknown::apply` writes an error response
frame whose message identifies the unrecognized command name, and succeeds.
It does not receive the store. -/
def Unknown.apply (cmd : Unknown) : Frame × Except ApplyErr Unit :=
  (Frame.error ("ERR unknown command " ++ cmd.command_name), .ok ())

/-- Modelled from the spec: the case-fold to lowercase applied to the
command name (Rust's `str::to_lowercase`, external library code),
character by character. -/
def strToLower (s : String) : String := ⟨s.data.map Char.toLower⟩

/-- The command enumeration from `src/cmd/mod.rs`. -/
inductive Command where
  | get (cmd : Get)
  | unknown (cmd : Unknown)

/-- `Command::from_frame` from `src/cmd/mod.rs`: build the `Parse` cursor
(must be an Array), read the leading name as a string and lowercase it,
route `"get"` to `Get::parse_frames` followed by `finish`, and return
`Unknown` for any other name without calling `finish`. -/
def Command.from_frame (frame : Frame) : Except ParseErr Command :=
  match Parse.new frame with
  | .error e => .error e
  | .ok p =>
    match p.next_string with
    | .error e => .error e
    | .ok (name, p) =>
      let command_name := strToLower name
      if command_name = "get" then
        match Get.parse_frames p with
        | .error e => .error e
        | .ok (cmd, p) =>
          match p.finish with
          | .error e => .error e
          | .ok _ => .ok (Command.get cmd)
      else
        .ok (Command.unknown (Unknown.new command_name))

/-- `Command::apply` from `src/cmd/mod.rs`: delegate to the variant's
apply; the shutdown parameter is accepted but unused (`_shutdown`).  The
frame written to the connection and the returned result are the second and
third components; the store after the call is the first. -/
def Command.apply : Command → Db → Shutdown → Db × Frame × Except ApplyErr Unit
  | .get cmd, db, _ => cmd.apply db
  | .unknown cmd, db, _ => (db, cmd.apply)

/-- `Command::get_name` from `src/cmd/mod.rs`. -/
def Command.get_name : Command → String
  | .get _ => "get"
  | .unknown cmd => cmd.get_name

/-- C1: for every Array frame whose first element is a string whose
lowercase is not the known command name "get", `from_frame` returns
`Ok (Unknown name)` with `name` exactly the lowercase of the original
string, regardless of how many trailing unconsumed elements remain. -/
theorem from_frame_unknown_command (first : Frame) (s : String)
    (rest : List Frame) (hs : first.asString = some s)
    (hne : strToLower s ≠ "get") :
    Command.from_frame (Frame.array (first :: rest)) =
      .ok (Command.unknown ⟨strToLower s⟩) := by
  cases first <;> simp [Frame.asString] at hs <;> subst hs <;>
    simp [Command.from_frame, Parse.new, Parse.next_string, Parse.next_frame,
      Unknown.new, hne]

/-- Witness for C1 at the concrete frame
`Array[Bulk "FROBnicate", Bulk "x", Bulk "y"]`. -/
theorem from_frame_unknown_command_witness :
    (Frame.bulk "FROBnicate").asString = some "FROBnicate" ∧
    strToLower "FROBnicate" ≠ "get" ∧
    Command.from_frame
        (Frame.array [Frame.bulk "FROBnicate", Frame.bulk "x", Frame.bulk "y"]) =
      .ok (Command.unknown ⟨"frobnicate"⟩) := by
  refine ⟨rfl, by decide, ?_⟩
  have h := from_frame_unknown_command (Frame.bulk "FROBnicate") "FROBnicate"
    [Frame.bulk "x", Frame.bulk "y"] rfl (by decide)
  simpa using h

/-- C2: for every Array frame whose first element is a string equal
case-insensitively to "get" but whose remaining elements violate Get's
arity (zero further elements, a first further element of non-string frame
type, or more than one further element), `from_frame` returns a
`ProtocolError` and never a constructed Command. -/
theorem from_frame_get_wrong_arity (first : Frame) (s : String)
    (rest : List Frame) (hs : first.asString = some s)
    (hget : strToLower s = "get")
    (harity : ¬ ∃ kf key, rest = [kf] ∧ kf.asString = some key) :
    ∃ e, Command.from_frame (Frame.array (first :: rest)) = .error e := by
  cases first <;> simp [Frame.asString] at hs <;> subst hs <;>
  · simp only [Command.from_frame, Parse.new, Parse.next_string,
      Parse.next_frame, hget, if_pos]
    match rest, harity with
    | [], _ => exact ⟨.endOfStream, rfl⟩
    | kf :: rest', harity =>
      cases kf <;>
        simp only [Get.parse_frames, Parse.next_string, Parse.next_frame]
      case bulk s' =>
        cases rest' with
        | nil => exact absurd ⟨Frame.bulk s', s', rfl, rfl⟩ harity
        | cons f' fs' => exact ⟨.trailingElements, rfl⟩
      case simple s' =>
        cases rest' with
        | nil => exact absurd ⟨Frame.simple s', s', rfl, rfl⟩ harity
        | cons f' fs' => exact ⟨.trailingElements, rfl⟩
      all_goals exact ⟨.invalidFrameType, rfl⟩

/-- Witness for C2 at the concrete frame `Array[Bulk "GET"]` (zero
arguments for Get). -/
theorem from_frame_get_wrong_arity_witness :
    (Frame.bulk "GET").asString = some "GET" ∧
    strToLower "GET" = "get" ∧
    (¬ ∃ kf key, ([] : List Frame) = [kf] ∧ kf.asString = some key) ∧
    ∃ e, Command.from_frame (Frame.array [Frame.bulk "GET"]) = .error e := by
  have hempty : ¬ ∃ kf key, ([] : List Frame) = [kf] ∧ kf.asString = some key := by
    rintro ⟨kf, key, h, -⟩
    exact List.noConfusion h
  exact ⟨rfl, by decide, hempty,
    from_frame_get_wrong_arity (Frame.bulk "GET") "GET" [] rfl (by decide) hempty⟩

/-- C3: for every top-level frame that is not the Array variant,
`from_frame` returns a `ProtocolError` arising from cursor construction
(NotAnArray), before any command-name reading or store access; the
function is total, so it never panics. -/
theorem from_frame_non_array (frame : Frame)
    (h : ∀ items, frame ≠ Frame.array items) :
    Command.from_frame frame = .error .notAnArray := by
  cases frame
  case array items => exact absurd rfl (h items)
  all_goals rfl

/-- Witness for C3 at the concrete frame `Integer 7`. -/
theorem from_frame_non_array_witness :
    (∀ items, Frame.integer 7 ≠ Frame.array items) ∧
    Command.from_frame (Frame.integer 7) = .error .notAnArray :=
  ⟨fun _ h => Frame.noConfusion h,
    from_frame_non_array (Frame.integer 7) (fun _ h => Frame.noConfusion h)⟩

/-- C4: parsing `Array[Bulk "GET", Bulk "foo"]` yields `Get "foo"`;
applying that command against a store mapping "foo" to "bar" writes the
bulk-string response "bar" and succeeds; applying it against an empty
store writes the null response and succeeds. -/
theorem get_round_trip :
    Command.from_frame (Frame.array [Frame.bulk "GET", Frame.bulk "foo"]) =
      .ok (Command.get ⟨"foo"⟩) ∧
    Command.apply (Command.get ⟨"foo"⟩)
        ⟨fun k => if k = "foo" then some "bar" else none⟩ ⟨false⟩ =
      (⟨fun k => if k = "foo" then some "bar" else none⟩,
        Frame.bulk "bar", .ok ()) ∧
    Command.apply (Command.get ⟨"foo"⟩) ⟨fun _ => none⟩ ⟨false⟩ =
      (⟨fun _ => none⟩, Frame.null, .ok ()) := by
  refine ⟨?_, ?_, ?_⟩
  · simp only [Command.from_frame, Parse.new, Parse.next_string,
      Parse.next_frame, Get.parse_frames, Parse.finish]
    rw [if_pos (by decide)]
  · simp [Command.apply, Get.apply]
  · simp [Command.apply, Get.apply]

/-- C5: for every Unknown command, store and shutdown value, `apply`
leaves the store untouched, writes an error response frame whose message
contains the unrecognized command name, and itself returns success (no
ApplyError). -/
theorem unknown_apply_error_frame (u : Unknown) (db : Db) (sd : Shutdown) :
    ∃ pre, Command.apply (Command.unknown u) db sd =
      (db, Frame.error (pre ++ u.command_name), .ok ()) :=
  ⟨"ERR unknown command ", rfl⟩

/-- C6: `from_frame` is case-insensitive in the command name: two Array
frames whose first elements are strings with the same lowercase folding
and which agree on all remaining elements parse to identical results. -/
theorem from_frame_case_insensitive (f₁ f₂ : Frame) (s₁ s₂ : String)
    (rest : List Frame) (h₁ : f₁.asString = some s₁)
    (h₂ : f₂.asString = some s₂) (hcase : strToLower s₁ = strToLower s₂) :
    Command.from_frame (Frame.array (f₁ :: rest)) =
      Command.from_frame (Frame.array (f₂ :: rest)) := by
  cases f₁ <;> simp [Frame.asString] at h₁ <;> subst h₁ <;>
    cases f₂ <;> simp [Frame.asString] at h₂ <;> subst h₂ <;>
    simp only [Command.from_frame, Parse.new, Parse.next_string,
      Parse.next_frame, hcase]

/-- Witness for C6: `["get", "k"]` and `["GeT", "k"]` parse to identical
Command values. -/
theorem from_frame_case_insensitive_witness :
    (Frame.bulk "get").asString = some "get" ∧
    (Frame.bulk "GeT").asString = some "GeT" ∧
    strToLower "get" = strToLower "GeT" ∧
    Command.from_frame (Frame.array [Frame.bulk "get", Frame.bulk "k"]) =
      Command.from_frame (Frame.array [Frame.bulk "GeT", Frame.bulk "k"]) :=
  ⟨rfl, rfl, by decide,
    from_frame_case_insensitive (Frame.bulk "get") (Frame.bulk "GeT")
      "get" "GeT" [Frame.bulk "k"] rfl rfl (by decide)⟩

/-- C7: applying a Get command is read-only and idempotent: the store
after `apply` equals the store before, and applying the same Get command
again to that unchanged store writes the same response frame and returns
the same result. -/
theorem get_apply_readonly_idempotent (g : Get) (db : Db) (sd : Shutdown) :
    (Command.apply (Command.get g) db sd).1 = db ∧
    Command.apply (Command.get g) (Command.apply (Command.get g) db sd).1 sd =
      Command.apply (Command.get g) db sd := by
  have h1 : (Command.apply (Command.get g) db sd).1 = db := by
    cases h : db.lookup g.key <;> simp [Command.apply, Get.apply, h]
  exact ⟨h1, by rw [h1]⟩

/-- C8: the name accessor is a pure projection returning the lowercase
canonical command name: "get" for every Get variant, the carried name for
every Unknown variant; and every command produced by `from_frame` from a
string-led Array frame carries either "get" or exactly the lowercase of
the observed first-element string. -/
theorem get_name_projection (g : Get) (u : Unknown) (first : Frame)
    (s : String) (rest : List Frame) (hs : first.asString = some s) :
    (Command.get g).get_name = "get" ∧
    (Command.unknown u).get_name = u.command_name ∧
    ∀ c, Command.from_frame (Frame.array (first :: rest)) = .ok c →
      c.get_name = "get" ∨ c.get_name = strToLower s := by
  refine ⟨rfl, rfl, ?_⟩
  intro c hc
  have hfirst : Parse.next_string (first :: rest) = .ok (s, rest) := by
    cases first <;> simp [Frame.asString] at hs <;>
      simp [Parse.next_string, Parse.next_frame, hs]
  · simp only [Command.from_frame, Parse.new, hfirst] at hc
    by_cases hif : strToLower s = "get"
    · rw [if_pos hif] at hc
      left
      split at hc
      · exact Except.noConfusion hc
      · split at hc
        · exact Except.noConfusion hc
        · cases hc
          rfl
    · rw [if_neg hif] at hc
      right
      cases hc
      rfl

/-- Witness for C8 at the concrete parse of `Array[Bulk "PING"]`,
which yields `Unknown "ping"`. -/
theorem get_name_projection_witness :
    (Command.get ⟨"k"⟩).get_name = "get" ∧
    (Command.unknown ⟨"ping"⟩).get_name = "ping" ∧
    ((Command.unknown ⟨"ping"⟩).get_name = "get" ∨
      (Command.unknown ⟨"ping"⟩).get_name = strToLower "PING") :=
  have h := get_name_projection ⟨"k"⟩ ⟨"ping"⟩ (Frame.bulk "PING") "PING" [] rfl
  ⟨h.1, h.2.1, h.2.2 (Command.unknown ⟨"ping"⟩) rfl⟩

/-- C9: `apply` ignores the shutdown-signal parameter: for every command,
store, and any two shutdown values, both the written response and the
returned result (and the store) are identical. -/
theorem apply_ignores_shutdown (c : Command) (db : Db) (sd₁ sd₂ : Shutdown) :
    Command.apply c db sd₁ = Command.apply c db sd₂ := by
  cases c <;> rfl

/-- C10: applying an Unknown command never touches the store: the store is
unchanged afterwards, and the written response and returned result are the
same for every possible store contents. -/
theorem unknown_apply_ignores_store (u : Unknown) (db₁ db₂ : Db)
    (sd : Shutdown) :
    (Command.apply (Command.unknown u) db₁ sd).1 = db₁ ∧
    (Command.apply (Command.unknown u) db₁ sd).2 =
      (Command.apply (Command.unknown u) db₂ sd).2 :=
  ⟨rfl, rfl⟩
